/-
  Verification of the DTV subledger journal validation pipeline (src/app.py).

  Strings are modelled as lists of character codes (`Str := List Nat`);
  amounts are modelled as exact rationals, with `round2` the round-half-to-even
  rounding to two decimal places that Python's `round(x, 2)` performs.
  Each definition mirrors the corresponding function of src/app.py.
-/
import Mathlib

set_option maxRecDepth 10000

/-- Strings are lists of character codes. -/
abbrev Str := List Nat

/-- Convert a Lean string literal to the code-list model. -/
def ofStr (s : String) : Str := s.data.map Char.toNat

/-- Whitespace test matching Python `str.strip`'s ASCII whitespace. -/
def isSp (c : Nat) : Bool :=
  c = 32 || c = 9 || c = 10 || c = 13 || c = 11 || c = 12

/-- Upper-case a single character code (ASCII), as `str.upper` does. -/
def upperChar (c : Nat) : Nat :=
  if 97 ≤ c ∧ c ≤ 122 then c - 32 else c

/-- Python `str.upper`. -/
def toUpperL (s : Str) : Str := s.map upperChar

/-- Python `str.strip`: drop whitespace from both ends. -/
def trim (s : Str) : Str :=
  ((s.dropWhile isSp).reverse.dropWhile isSp).reverse

/-- The function `clean_str` of src/app.py: `""` for null/absent (`none`) or empty input,
otherwise the trimmed upper-cased string.  (`pd.isna` is the `none` case.) -/
def clean_str (val : Option Str) : Str :=
  match val with
  | none => []
  | some s => if s = [] then [] else toUpperL (trim s)

/-- Round a rational to the nearest integer, ties to even
(the rounding used by Python's `round`). -/
def halfEven (q : ℚ) : ℤ :=
  if Int.fract q < 1/2 then ⌊q⌋
  else if 1/2 < Int.fract q then ⌊q⌋ + 1
  else if ⌊q⌋ % 2 = 0 then ⌊q⌋ else ⌊q⌋ + 1

/-- Python `round(x, 2)`: round to two decimal places, ties to even. -/
def round2 (q : ℚ) : ℚ := (halfEven (q * 100) : ℚ) / 100

/-- The `*` separator character of composite account strings. -/
def starSep : Str := [42]

/-- The `|` separator used to build the cost-center composite key. -/
def pipeSep : Str := [124]

/-- One input transaction row (the fields used by resolution; passthrough
fields of the 19-column layout play no role in the claims). -/
structure TransactionRecord where
  companyCode : Str
  glAccount : Str
  extc : Str
  rcc : Str
  rco : Str
  amount : ℚ
  productCode : Str
deriving DecidableEq

/-- A row of one of the wildcard-capable mapping tables (MAM_DB / SAM_DB):
`GL Account`, `EXTC`, and the target column value. -/
structure MappingRow where
  glAccount : Str
  extc : Str
  target : Str
deriving DecidableEq

/-- A row of the cost-center table CCM_DB. -/
structure CcmRow where
  rcc : Str
  accountType : Str
  dtvCostCenter : Str
deriving DecidableEq

/-- Cleaned GL-account key of a mapping row (`GL_CLEAN` of src/app.py l.127). -/
def glCleanRow (r : MappingRow) : Str := clean_str (some r.glAccount)

/-- Cleaned EXTC key of a mapping row: a literal `*` (after strip) is kept as
the wildcard sentinel, anything else goes through `clean_str` (l.128). -/
def extcCleanRow (r : MappingRow) : Str :=
  if trim r.extc = starSep then starSep else clean_str (some r.extc)

/-- Exact-stage row predicate (src/app.py l.131): the row's normalized
(GL, EXTC) key equals the record's normalized key. -/
def exactKeyP (gl etc : Str) (r : MappingRow) : Bool :=
  glCleanRow r == clean_str (some gl) && extcCleanRow r == clean_str (some etc)

/-- Wildcard-stage row predicate (src/app.py l.133): the row's normalized GL
matches and its EXTC is the wildcard sentinel. -/
def wildKeyP (gl : Str) (r : MappingRow) : Bool :=
  glCleanRow r == clean_str (some gl) && extcCleanRow r == starSep

/-- The body of the per-record loop of `map_with_wildcard_clean`
(src/app.py l.130-134): first row matching the exact (GL, EXTC) key, else
first row matching (GL, `*`), else the default value. -/
def lookup_one (mapping : List MappingRow) (default_val gl etc : Str) : Str :=
  match mapping.find? (exactKeyP gl etc) with
  | some r => r.target
  | none =>
    match mapping.find? (wildKeyP gl) with
    | some r => r.target
    | none => default_val

/-- The function `map_with_wildcard_clean` of src/app.py: map each record's (GL, EXTC)
key pair through the two-stage exact-then-wildcard lookup. -/
def map_with_wildcard_clean (keys : List (Str × Str)) (mapping : List MappingRow)
    (default_val : Str) : List Str :=
  keys.map (fun k => lookup_one mapping default_val k.1 k.2)

/-- Lookup in a Python `dict(zip(keys, vals))`: on duplicate keys the last
occurrence wins, because later insertions overwrite earlier ones. -/
def dictOf (pairs : List (Str × Str)) (k : Str) : Option Str :=
  (pairs.reverse.find? (fun p => p.1 == k)).map (fun p => p.2)

/-- The fixed `ACCOUNT_TYPE_MAP` label table; unrecognized codes pass
through unchanged (`.map(...).fillna(code)`, src/app.py l.153). -/
def ACCOUNT_TYPE_MAP (c : Str) : Str :=
  if c = ofStr "L" then ofStr "Liability"
  else if c = ofStr "R" then ofStr "Revenue"
  else if c = ofStr "O" then ofStr "Other"
  else if c = ofStr "A" then ofStr "Asset"
  else if c = ofStr "E" then ofStr "Expense"
  else c

/-- Pandas `drop_duplicates(keep="first")` on the first component. -/
def dedupFirstAux (seen : List Str) : List (Str × Str) → List (Str × Str)
  | [] => []
  | p :: rest =>
    if p.1 ∈ seen then dedupFirstAux seen rest
    else p :: dedupFirstAux (p.1 :: seen) rest

/-- A record after `transform_data` augmented it with all resolved fields. -/
structure ResolvedRecord where
  origin : TransactionRecord
  dtvMainAccount : Str
  dtvSubAccount : Str
  accountTypeCode : Str
  accountType : Str
  dtvCompany : Str
  dtvCostCenter : Str
  finPrdCd : Option Str
  product : Str
  debit : ℚ
  credit : ℚ
  amountOut : ℚ
  account : Str
deriving DecidableEq

/-- Resolve one transaction record: the per-record content of
`transform_data` (src/app.py l.140-203). -/
def resolveRecord (sam mam : List MappingRow) (ma company : List (Str × Str))
    (ccm : List CcmRow) (product_tbl : List (Str × Str))
    (t : TransactionRecord) : ResolvedRecord :=
  let glc := clean_str (some t.glAccount)
  let extcc := clean_str (some t.extc)
  let compc := clean_str (some t.companyCode)
  let main := lookup_one mam (ofStr "000000") glc extcc
  let sub := lookup_one sam (ofStr "000000") glc extcc
  let atCode :=
    (dictOf (ma.map (fun p => (clean_str (some p.1), p.2))) (clean_str (some main))).getD
      (ofStr "UNKNOWN")
  let atLabel := ACCOUNT_TYPE_MAP atCode
  let comp :=
    (dictOf (company.map (fun p => (clean_str (some p.1), p.2))) compc).getD (ofStr "NULL")
  let cc :=
    (dictOf (ccm.map (fun r => (trim r.rcc ++ pipeSep ++ trim r.accountType, r.dtvCostCenter)))
      (trim (trim t.rcc) ++ pipeSep ++ trim atCode)).getD (ofStr "000000")
  let pc := toUpperL (trim t.productCode)
  let fin := dictOf product_tbl pc
  let prod :=
    match fin with
    | none => ofStr "0000"
    | some v =>
      if v = [] ∨ v = ofStr "UNMATCHED" ∨ v = ofStr "MISSING" then ofStr "0000" else v
  let debit := if 0 < t.amount then round2 t.amount else 0
  let credit := if t.amount < 0 then round2 |t.amount| else 0
  let amountOut := round2 t.amount
  let account :=
    comp ++ starSep ++ main ++ starSep ++ sub ++ starSep ++ cc ++ starSep ++
      ofStr "0000" ++ starSep ++ prod ++ starSep ++ ofStr "000" ++ starSep ++
      ofStr "00000" ++ starSep ++ ofStr "00000"
  ⟨t, main, sub, atCode, atLabel, comp, cc, fin, prod, debit, credit, amountOut, account⟩

/-- The six-column group-by key of the summary aggregation (src/app.py l.214-216). -/
structure GroupKey where
  company : Str
  main : Str
  accountType : Str
  sub : Str
  costCenter : Str
  finPrd : Option Str
deriving DecidableEq

/-- Group key of a resolved record. -/
def keyOf (r : ResolvedRecord) : GroupKey :=
  ⟨r.dtvCompany, r.dtvMainAccount, r.accountType, r.dtvSubAccount, r.dtvCostCenter, r.finPrdCd⟩

/-- One row of the summary table.  `account` is `none` for the group whose
product is unresolved (string concatenation with a missing value yields a
missing value, not a string). -/
structure SummaryRow where
  key : GroupKey
  debit : ℚ
  credit : ℚ
  account : Option Str
deriving DecidableEq

/-- Group debit total: sum the members' Debit column, then round (l.217, 219). -/
def summaryDebit (rs : List ResolvedRecord) (k : GroupKey) : ℚ :=
  round2 (((rs.filter (fun r => keyOf r == k)).map (fun r => r.debit)).sum)

/-- Group credit total: sum the members' Credit column, then round (l.217, 220). -/
def summaryCredit (rs : List ResolvedRecord) (k : GroupKey) : ℚ :=
  round2 (((rs.filter (fun r => keyOf r == k)).map (fun r => r.credit)).sum)

/-- The summary Account string (src/app.py l.222-229): ten `*`-separated
segments, with the account-type label inserted after the sub account. -/
def summaryAccount (k : GroupKey) : Option Str :=
  k.finPrd.map (fun p =>
    k.company ++ starSep ++ k.main ++ starSep ++ k.sub ++ starSep ++ k.accountType ++ starSep ++
      k.costCenter ++ ofStr "*0000*" ++ p ++ ofStr "*000*00000*00000")

/-- First-seen-order deduplication of group keys. -/
def dedupKeys (seen : List GroupKey) : List GroupKey → List GroupKey
  | [] => []
  | k :: rest =>
    if k ∈ seen then dedupKeys seen rest
    else k :: dedupKeys (k :: seen) rest

/-- The summary table: one row per distinct group key of the resolved records. -/
def summaryOf (rs : List ResolvedRecord) : List SummaryRow :=
  (dedupKeys [] (rs.map keyOf)).map
    (fun k => ⟨k, summaryDebit rs k, summaryCredit rs k, summaryAccount k⟩)

/-- The unmatched filter of src/app.py l.206-211. -/
def isUnmatched (r : ResolvedRecord) : Bool :=
  r.dtvMainAccount == ofStr "000000" || r.dtvSubAccount == ofStr "000000" ||
    r.dtvCompany == ofStr "NULL" || r.finPrdCd.isNone

/-- The function `transform_data` of src/app.py: resolve every record, aggregate the
summary over all of them, and filter out the unmatched view. -/
def transform_data (df : List TransactionRecord) (sam mam : List MappingRow)
    (ma company : List (Str × Str)) (ccm : List CcmRow)
    (product_tbl : List (Str × Str)) :
    List ResolvedRecord × List SummaryRow × List ResolvedRecord :=
  let resolved := df.map (resolveRecord sam mam ma company ccm product_tbl)
  (resolved, summaryOf resolved, resolved.filter isUnmatched)

/-- Sum of the original signed amounts of the input records. -/
def total_amount (df : List TransactionRecord) : ℚ :=
  (df.map (fun t => t.amount)).sum

/-- Definition following the SPEC's words for claim C7, to be compared with
`summaryDebit` from the source: sum the members' unrounded positive amount
parts, with two-decimal rounding applied exactly once after summation and no
per-record rounding beforehand. -/
def specSummaryDebit (rs : List ResolvedRecord) (k : GroupKey) : ℚ :=
  round2 (((rs.filter (fun r => keyOf r == k)).map
    (fun r => if 0 < r.origin.amount then r.origin.amount else 0)).sum)

/-- Substring test: does `needle` start `hay`? -/
def startsWithL : Str → Str → Bool
  | [], _ => true
  | _ :: _, [] => false
  | a :: as, b :: bs => a == b && startsWithL as bs

/-- Substring test: does `hay` contain `needle` contiguously? -/
def hasSub (needle : Str) : Str → Bool
  | [] => needle == []
  | c :: rest => startsWithL needle (c :: rest) || hasSub needle rest

/-- Grand total debit shown by `load_summary` (src/app.py l.249). -/
def total_debit (rs : List ResolvedRecord) : ℚ := (rs.map (fun r => r.debit)).sum

/-- Grand total credit shown by `load_summary` (src/app.py l.250). -/
def total_credit (rs : List ResolvedRecord) : ℚ := (rs.map (fun r => r.credit)).sum

/-- The mapping-table presence check of `extract_data` (src/app.py l.102-103):
if any of the five categories was not supplied, raise a `ValueError` naming
the categories; otherwise hand the five tables on. -/
def extract_data (samQ mamQ : Option (List MappingRow))
    (maQ companyQ : Option (List (Str × Str))) (ccmQ : Option (List CcmRow)) :
    Except Str
      (List MappingRow × List MappingRow × List (Str × Str) × List (Str × Str) × List CcmRow) :=
  if samQ.isNone || mamQ.isNone || maQ.isNone || companyQ.isNone || ccmQ.isNone then
    Except.error (ofStr "Missing one or more mapping files: sam, mam, ma, company, ccm")
  else
    Except.ok (samQ.getD [], mamQ.getD [], maQ.getD [], companyQ.getD [], ccmQ.getD [])

/-- The function `load_product_mapping` of src/app.py l.108-120: fail unless both required
columns are present; clean the two columns and drop duplicate source ids
keeping the first. -/
def load_product_mapping (cols : List Str) (rows : List (Str × Str)) :
    Except Str (List (Str × Str)) :=
  if ofStr "ATT_SLS_PRD_ID" ∈ cols ∧ ofStr "FIN_PRD_CD" ∈ cols then
    Except.ok (dedupFirstAux [] (rows.map (fun p => (toUpperL (trim p.1), toUpperL (trim p.2)))))
  else
    Except.error (ofStr "Product mapping sheet must contain columns: ATT_SLS_PRD_ID, FIN_PRD_CD")

/-- The pipeline body of `main` (src/app.py l.293-303): extraction and
product loading run before transformation; any failure aborts with that
error and produces none of the three output tables. -/
def run_pipeline (df : List TransactionRecord) (samQ mamQ : Option (List MappingRow))
    (maQ companyQ : Option (List (Str × Str))) (ccmQ : Option (List CcmRow))
    (prodCols : List Str) (prodRows : List (Str × Str)) :
    Except Str (List ResolvedRecord × List SummaryRow × List ResolvedRecord) := do
  let (s, m, a, c, cc) ← extract_data samQ mamQ maQ companyQ ccmQ
  let p ← load_product_mapping prodCols prodRows
  pure (transform_data df s m a c cc p)

/-- The rounding `halfEven` on values strictly below the midpoint rounds down. -/
theorem halfEven_of_lt (z : ℤ) (q : ℚ) (h0 : (z : ℚ) ≤ q) (h1 : q < (z : ℚ) + 1/2) :
    halfEven q = z := by
  have hf : ⌊q⌋ = z := by
    rw [Int.floor_eq_iff]
    constructor
    · exact h0
    · linarith
  have hfr : Int.fract q < 1/2 := by
    rw [Int.fract, hf]
    linarith
  unfold halfEven
  rw [if_pos hfr, hf]

/-- The rounding `halfEven` on values strictly above the midpoint rounds up. -/
theorem halfEven_of_gt (z : ℤ) (q : ℚ) (h0 : (z : ℚ) + 1/2 < q) (h1 : q < (z : ℚ) + 1) :
    halfEven q = z + 1 := by
  have hf : ⌊q⌋ = z := by
    rw [Int.floor_eq_iff]
    constructor
    · linarith
    · linarith
  have hfr : 1/2 < Int.fract q := by
    rw [Int.fract, hf]
    linarith
  unfold halfEven
  rw [if_neg (by linarith), if_pos hfr, hf]

/-- The rounding `halfEven` fixes integers. -/
theorem halfEven_intCast (z : ℤ) : halfEven (z : ℚ) = z := by
  apply halfEven_of_lt
  · exact le_refl _
  · linarith

/-- The rounding `halfEven` never goes below the floor. -/
theorem halfEven_ge_floor (q : ℚ) : ⌊q⌋ ≤ halfEven q := by
  unfold halfEven
  split_ifs <;> omega

/-- The rounding `halfEven` of a nonnegative value is nonnegative. -/
theorem halfEven_nonneg (q : ℚ) (h : 0 ≤ q) : 0 ≤ halfEven q := by
  have := halfEven_ge_floor q
  have h2 : (0 : ℤ) ≤ ⌊q⌋ := by
    rw [Int.le_floor]
    exact_mod_cast h
  omega

/-- The rounding `halfEven` is an odd function. -/
theorem halfEven_neg (q : ℚ) : halfEven (-q) = -halfEven q := by
  by_cases hz : Int.fract q = 0
  · have hq : q = (⌊q⌋ : ℚ) := by
      have h : q - ⌊q⌋ = 0 := hz
      linarith
    rw [hq, ← Int.cast_neg, halfEven_intCast, halfEven_intCast]
  · have h0 : 0 < Int.fract q := lt_of_le_of_ne (Int.fract_nonneg q) (Ne.symm hz)
    have h1 : Int.fract q < 1 := Int.fract_lt_one q
    have hfn : Int.fract (-q) = 1 - Int.fract q := Int.fract_neg hz
    have hfl : ⌊-q⌋ = -⌊q⌋ - 1 := by
      rw [Int.floor_eq_iff]
      have hq0 : (⌊q⌋ : ℚ) ≤ q := Int.floor_le q
      have hq1 : q - ⌊q⌋ < 1 := by
        have h2 := Int.fract_lt_one q
        rw [Int.fract] at h2
        linarith
      have hq2 : 0 < q - ⌊q⌋ := by
        rw [Int.fract] at h0
        linarith
      constructor
      · push_cast
        linarith
      · push_cast
        linarith
    rcases lt_trichotomy (Int.fract q) (1/2) with hlt | heq | hgt
    · have e1 : halfEven q = ⌊q⌋ := by
        unfold halfEven
        rw [if_pos hlt]
      have e2 : halfEven (-q) = ⌊-q⌋ + 1 := by
        unfold halfEven
        rw [hfn, if_neg (show ¬(1 - Int.fract q < 1/2) by linarith),
          if_pos (show (1 : ℚ)/2 < 1 - Int.fract q by linarith)]
      rw [e1, e2, hfl]
      omega
    · have e1 : halfEven q = if ⌊q⌋ % 2 = 0 then ⌊q⌋ else ⌊q⌋ + 1 := by
        unfold halfEven
        rw [if_neg (show ¬(Int.fract q < 1/2) by rw [heq]; norm_num),
          if_neg (show ¬((1:ℚ)/2 < Int.fract q) by rw [heq]; norm_num)]
      have e2 : halfEven (-q) = if ⌊-q⌋ % 2 = 0 then ⌊-q⌋ else ⌊-q⌋ + 1 := by
        unfold halfEven
        rw [hfn, heq, if_neg (show ¬((1:ℚ) - 1/2 < 1/2) by norm_num),
          if_neg (show ¬((1:ℚ)/2 < 1 - 1/2) by norm_num)]
      rw [e1, e2, hfl]
      by_cases hpar : ⌊q⌋ % 2 = 0
      · rw [if_pos hpar, if_neg (by omega)]
        omega
      · rw [if_neg hpar, if_pos (by omega)]
        omega
    · have e1 : halfEven q = ⌊q⌋ + 1 := by
        unfold halfEven
        rw [if_neg (show ¬(Int.fract q < 1/2) by linarith), if_pos hgt]
      have e2 : halfEven (-q) = ⌊-q⌋ := by
        unfold halfEven
        rw [hfn, if_pos (show (1 : ℚ) - Int.fract q < 1/2 by linarith)]
      rw [e1, e2, hfl]
      omega

/-- Rounding with `round2` fixes exact two-decimal values. -/
theorem round2_cent (n : ℤ) : round2 ((n : ℚ) / 100) = (n : ℚ) / 100 := by
  unfold round2
  have h : ((n : ℚ) / 100) * 100 = (n : ℚ) := by ring
  rw [h, halfEven_intCast]

/-- Rounding zero gives zero. -/
theorem round2_zero : round2 0 = 0 := by
  have := round2_cent 0
  simpa using this

/-- Rounding with `round2` preserves nonnegativity. -/
theorem round2_nonneg (q : ℚ) (h : 0 ≤ q) : 0 ≤ round2 q := by
  unfold round2
  have h1 : 0 ≤ halfEven (q * 100) := halfEven_nonneg _ (by positivity)
  positivity

/-- Rounding with `round2` is an odd function. -/
theorem round2_neg (q : ℚ) : round2 (-q) = -round2 q := by
  unfold round2
  have h : -q * 100 = -(q * 100) := by ring
  rw [h, halfEven_neg]
  push_cast
  ring

/-- Upper-casing a character twice equals doing it once. -/
theorem upperChar_idem (c : Nat) : upperChar (upperChar c) = upperChar c := by
  unfold upperChar
  split_ifs with h1 h2 <;> omega

/-- Upper-casing does not change whether a character is whitespace. -/
theorem isSp_upperChar (c : Nat) : isSp (upperChar c) = isSp c := by
  unfold upperChar
  split_ifs with h
  · have h1 : isSp (c - 32) = false := by
      simp only [isSp, Bool.or_eq_false_iff, decide_eq_false_iff_not]
      omega
    have h2 : isSp c = false := by
      simp only [isSp, Bool.or_eq_false_iff, decide_eq_false_iff_not]
      omega
    rw [h1, h2]
  · rfl

/-- Upper-casing a list twice equals doing it once. -/
theorem toUpperL_idem (s : Str) : toUpperL (toUpperL s) = toUpperL s := by
  induction s with
  | nil => rfl
  | cons a t ih =>
    simp only [toUpperL, List.map_cons, List.map_map] at ih ⊢
    rw [upperChar_idem]
    exact congrArg _ (by simpa [toUpperL, List.map_map] using ih)

/-- Dropping leading whitespace commutes with upper-casing. -/
theorem dropWhile_isSp_toUpperL (s : Str) :
    (toUpperL s).dropWhile isSp = toUpperL (s.dropWhile isSp) := by
  induction s with
  | nil => rfl
  | cons a t ih =>
    simp only [toUpperL, List.map_cons, List.dropWhile_cons, isSp_upperChar]
    cases h : isSp a with
    | true => simpa [toUpperL] using ih
    | false => simp

/-- Reversal commutes with upper-casing. -/
theorem reverse_toUpperL (s : Str) : (toUpperL s).reverse = toUpperL s.reverse := by
  simp [toUpperL, List.map_reverse]

/-- Trimming commutes with upper-casing. -/
theorem trim_toUpperL (s : Str) : trim (toUpperL s) = toUpperL (trim s) := by
  unfold trim
  rw [dropWhile_isSp_toUpperL, reverse_toUpperL, dropWhile_isSp_toUpperL, reverse_toUpperL]

/-- Dropping a leading run is idempotent. -/
theorem dropWhile_isSp_idem (p : Nat → Bool) (l : Str) :
    (l.dropWhile p).dropWhile p = l.dropWhile p := by
  induction l with
  | nil => rfl
  | cons a t ih =>
    cases h : p a with
    | true => simpa [List.dropWhile_cons, h] using ih
    | false => simp [List.dropWhile_cons, h]

/-- The head of a `dropWhile` result does not satisfy the predicate. -/
theorem head?_dropWhile (p : Nat → Bool) (l : Str) (a : Nat)
    (h : (l.dropWhile p).head? = some a) : p a = false := by
  induction l with
  | nil => simp at h
  | cons b t ih =>
    by_cases hb : p b = true
    · rw [List.dropWhile_cons, if_pos hb] at h
      exact ih h
    · rw [List.dropWhile_cons, if_neg hb] at h
      simp at h
      rw [← h]
      simpa using hb

/-- A list whose head fails the predicate is untouched by `dropWhile`. -/
theorem dropWhile_eq_self_of_head? (p : Nat → Bool) (l : Str)
    (h : ∀ a, l.head? = some a → p a = false) : l.dropWhile p = l := by
  cases l with
  | nil => rfl
  | cons a t =>
    rw [List.dropWhile_cons, if_neg]
    simp [h a rfl]

/-- Right-trimming a left-trimmed list leaves a list that is still
left-trimmed. -/
theorem dropWhile_rev_dropWhile (p : Nat → Bool) (m : Str)
    (hm : m.dropWhile p = m) :
    ((m.reverse.dropWhile p).reverse).dropWhile p = (m.reverse.dropWhile p).reverse := by
  apply dropWhile_eq_self_of_head?
  intro a ha
  have hsplit : m.reverse = m.reverse.takeWhile p ++ m.reverse.dropWhile p :=
    (List.takeWhile_append_dropWhile p m.reverse).symm
  have hm2 : m = (m.reverse.dropWhile p).reverse ++ (m.reverse.takeWhile p).reverse := by
    have h2 := congrArg List.reverse hsplit
    rw [List.reverse_reverse, List.reverse_append] at h2
    exact h2
  cases hc : (m.reverse.dropWhile p).reverse with
  | nil =>
    rw [hc] at ha
    simp at ha
  | cons x xs =>
    rw [hc] at ha
    simp at ha
    rw [hc] at hm2
    have hmx : (m.dropWhile p).head? = some x := by
      rw [hm, hm2]
      simp
    have hx := head?_dropWhile p m x hmx
    rw [← ha]
    exact hx

/-- Trimming is idempotent. -/
theorem trim_idem (s : Str) : trim (trim s) = trim s := by
  unfold trim
  have hA : (s.dropWhile isSp).dropWhile isSp = s.dropWhile isSp :=
    dropWhile_isSp_idem _ _
  rw [dropWhile_rev_dropWhile isSp (s.dropWhile isSp) hA, List.reverse_reverse,
    dropWhile_isSp_idem]

/-- Normalization with `clean_str` is idempotent. -/
theorem clean_str_idem (v : Option Str) :
    clean_str (some (clean_str v)) = clean_str v := by
  cases v with
  | none => rfl
  | some s =>
    by_cases hs : s = []
    · simp [clean_str, hs]
    · have hv : clean_str (some s) = toUpperL (trim s) := by
        simp only [clean_str, if_neg hs]
      rw [hv]
      by_cases ht : toUpperL (trim s) = []
      · rw [ht]
        simp [clean_str]
      · simp only [clean_str, if_neg ht]
        rw [trim_toUpperL, trim_idem, toUpperL_idem]

theorem resolveRecord_debit (sam mam : List MappingRow) (ma company : List (Str × Str))
    (ccm : List CcmRow) (pt : List (Str × Str)) (t : TransactionRecord) :
    (resolveRecord sam mam ma company ccm pt t).debit =
      if 0 < t.amount then round2 t.amount else 0 := rfl

theorem resolveRecord_credit (sam mam : List MappingRow) (ma company : List (Str × Str))
    (ccm : List CcmRow) (pt : List (Str × Str)) (t : TransactionRecord) :
    (resolveRecord sam mam ma company ccm pt t).credit =
      if t.amount < 0 then round2 |t.amount| else 0 := rfl

theorem resolveRecord_amountOut (sam mam : List MappingRow) (ma company : List (Str × Str))
    (ccm : List CcmRow) (pt : List (Str × Str)) (t : TransactionRecord) :
    (resolveRecord sam mam ma company ccm pt t).amountOut = round2 t.amount := rfl

theorem resolveRecord_origin (sam mam : List MappingRow) (ma company : List (Str × Str))
    (ccm : List CcmRow) (pt : List (Str × Str)) (t : TransactionRecord) :
    (resolveRecord sam mam ma company ccm pt t).origin = t := rfl

theorem resolveRecord_account (sam mam : List MappingRow) (ma company : List (Str × Str))
    (ccm : List CcmRow) (pt : List (Str × Str)) (t : TransactionRecord) :
    (resolveRecord sam mam ma company ccm pt t).account =
      (resolveRecord sam mam ma company ccm pt t).dtvCompany ++ starSep ++
      (resolveRecord sam mam ma company ccm pt t).dtvMainAccount ++ starSep ++
      (resolveRecord sam mam ma company ccm pt t).dtvSubAccount ++ starSep ++
      (resolveRecord sam mam ma company ccm pt t).dtvCostCenter ++ starSep ++
      ofStr "0000" ++ starSep ++
      (resolveRecord sam mam ma company ccm pt t).product ++ starSep ++
      ofStr "000" ++ starSep ++ ofStr "00000" ++ starSep ++ ofStr "00000" := rfl

example : ofStr "*0000*" = starSep ++ ofStr "0000" ++ starSep := by decide

/-- Splitting the nine-segment composite account string recovers its segments
when none of them contains the separator. -/
theorem splitOn_nine (c m s cc p : Str)
    (h1 : 42 ∉ c) (h2 : 42 ∉ m) (h3 : 42 ∉ s) (h4 : 42 ∉ cc) (h5 : 42 ∉ p) :
    (c ++ starSep ++ m ++ starSep ++ s ++ starSep ++ cc ++ starSep ++ ofStr "0000" ++ starSep ++
      p ++ starSep ++ ofStr "000" ++ starSep ++ ofStr "00000" ++ starSep ++ ofStr "00000").splitOn 42 =
    [c, m, s, cc, ofStr "0000", p, ofStr "000", ofStr "00000", ofStr "00000"] := by
  have key : c ++ starSep ++ m ++ starSep ++ s ++ starSep ++ cc ++ starSep ++ ofStr "0000" ++ starSep ++
      p ++ starSep ++ ofStr "000" ++ starSep ++ ofStr "00000" ++ starSep ++ ofStr "00000" =
      [(42 : Nat)].intercalate
        [c, m, s, cc, ofStr "0000", p, ofStr "000", ofStr "00000", ofStr "00000"] := by
    simp [List.intercalate, List.intersperse, starSep, List.append_assoc]
  rw [key]
  apply List.splitOn_intercalate
  · intro l hl
    simp only [List.mem_cons, List.not_mem_nil, or_false] at hl
    rcases hl with h | h | h | h | h | h | h | h | h <;> subst h
    · exact h1
    · exact h2
    · exact h3
    · exact h4
    · decide
    · exact h5
    · decide
    · decide
    · decide
  · simp

/-- Splitting the ten-segment summary account string recovers its segments
when none of them contains the separator. -/
theorem splitOn_ten (c m s at_ cc p : Str)
    (h1 : 42 ∉ c) (h2 : 42 ∉ m) (h3 : 42 ∉ s) (h4 : 42 ∉ at_) (h5 : 42 ∉ cc)
    (h6 : 42 ∉ p) :
    (c ++ starSep ++ m ++ starSep ++ s ++ starSep ++ at_ ++ starSep ++ cc ++
      ofStr "*0000*" ++ p ++ ofStr "*000*00000*00000").splitOn 42 =
    [c, m, s, at_, cc, ofStr "0000", p, ofStr "000", ofStr "00000", ofStr "00000"] := by
  have key : c ++ starSep ++ m ++ starSep ++ s ++ starSep ++ at_ ++ starSep ++ cc ++
      ofStr "*0000*" ++ p ++ ofStr "*000*00000*00000" =
      [(42 : Nat)].intercalate
        [c, m, s, at_, cc, ofStr "0000", p, ofStr "000", ofStr "00000", ofStr "00000"] := by
    have e1 : ofStr "*0000*" = starSep ++ ofStr "0000" ++ starSep := by decide
    have e2 : ofStr "*000*00000*00000" =
        starSep ++ ofStr "000" ++ starSep ++ ofStr "00000" ++ starSep ++ ofStr "00000" := by
      decide
    rw [e1, e2]
    simp [List.intercalate, List.intersperse, starSep, List.append_assoc]
  rw [key]
  apply List.splitOn_intercalate
  · intro l hl
    simp only [List.mem_cons, List.not_mem_nil, or_false] at hl
    rcases hl with h | h | h | h | h | h | h | h | h | h <;> subst h
    · exact h1
    · exact h2
    · exact h3
    · exact h4
    · exact h5
    · decide
    · exact h6
    · decide
    · decide
    · decide
  · simp

/-- Per record, the debit/credit split reconstructs the rounded amount. -/
theorem debit_sub_credit (a : ℚ) :
    (if 0 < a then round2 a else 0) - (if a < 0 then round2 |a| else 0) = round2 a := by
  rcases lt_trichotomy a 0 with h | h | h
  · rw [if_neg (by linarith), if_pos h, abs_of_neg h, round2_neg]
    ring
  · subst h
    rw [if_neg (by norm_num), if_neg (by norm_num), round2_zero]
    norm_num
  · rw [if_pos h, if_neg (by linarith)]
    ring

/-- Every `round2` value is an exact multiple of one hundredth. -/
theorem round2_is_cent (q : ℚ) : ∃ n : ℤ, round2 q = (n : ℚ) / 100 :=
  ⟨halfEven (q * 100), rfl⟩

/-- The debit column value is an exact multiple of one hundredth. -/
theorem debit_is_cent (a : ℚ) :
    ∃ n : ℤ, (if 0 < a then round2 a else 0) = (n : ℚ) / 100 := by
  by_cases h : 0 < a
  · rw [if_pos h]
    exact round2_is_cent a
  · rw [if_neg h]
    exact ⟨0, by norm_num⟩

/-- The credit column value is an exact multiple of one hundredth. -/
theorem credit_is_cent (a : ℚ) :
    ∃ n : ℤ, (if a < 0 then round2 |a| else 0) = (n : ℚ) / 100 := by
  by_cases h : a < 0
  · rw [if_pos h]
    exact round2_is_cent _
  · rw [if_neg h]
    exact ⟨0, by norm_num⟩

/-- A sum of exact multiples of one hundredth is one as well. -/
theorem sum_cents (l : List ℚ) (h : ∀ x ∈ l, ∃ n : ℤ, x = (n : ℚ) / 100) :
    ∃ n : ℤ, l.sum = (n : ℚ) / 100 := by
  induction l with
  | nil => exact ⟨0, by norm_num⟩
  | cons a t ih =>
    obtain ⟨n, hn⟩ := h a (List.mem_cons_self a t)
    obtain ⟨m, hm⟩ := ih (fun x hx => h x (List.mem_cons_of_mem a hx))
    refine ⟨n + m, ?_⟩
    rw [List.sum_cons, hn, hm]
    push_cast
    ring

/-- Rounding with `round2` fixes any sum of exact two-decimal values. -/
theorem round2_sum_of_cents (l : List ℚ) (h : ∀ x ∈ l, ∃ n : ℤ, x = (n : ℚ) / 100) :
    round2 l.sum = l.sum := by
  obtain ⟨n, hn⟩ := sum_cents l h
  rw [hn, round2_cent]

/-- A mapped sum splits along a filter and its complement. -/
theorem sum_map_filter_split (l : List ResolvedRecord) (p : ResolvedRecord → Bool)
    (f : ResolvedRecord → ℚ) :
    (l.map f).sum = ((l.filter p).map f).sum + ((l.filter (fun x => !(p x))).map f).sum := by
  induction l with
  | nil => simp
  | cons a t ih =>
    cases h : p a with
    | true => simp [List.filter_cons, h, ih]; ring
    | false => simp [List.filter_cons, h, ih]; ring

/-- Any key occurring in the list survives `dedupKeys` unless already seen. -/
theorem mem_dedupKeys (l : List GroupKey) (k : GroupKey) (h : k ∈ l) :
    ∀ seen, k ∈ dedupKeys seen l ∨ k ∈ seen := by
  induction l with
  | nil => simp at h
  | cons a t ih =>
    intro seen
    rcases List.mem_cons.mp h with rfl | hmem
    · by_cases hs : k ∈ seen
      · exact Or.inr hs
      · left
        rw [dedupKeys, if_neg hs]
        exact List.mem_cons_self _ _
    · by_cases hs : a ∈ seen
      · rw [dedupKeys, if_pos hs]
        exact ih hmem seen
      · rw [dedupKeys, if_neg hs]
        rcases ih hmem (a :: seen) with hin | hin
        · exact Or.inl (List.mem_cons_of_mem _ hin)
        · rcases List.mem_cons.mp hin with rfl | hin2
          · exact Or.inl (List.mem_cons_self _ _)
          · exact Or.inr hin2

/-- A concrete input record used by witness theorems. -/
def wRec : TransactionRecord :=
  ⟨ofStr "C1", ofStr "4000", ofStr "10", ofStr "R1", ofStr "", -3/2, ofStr "P1"⟩

/-- C8: the key normalizer returns the empty string for absent/null/empty
input and otherwise the trimmed upper-cased form; it is idempotent
(`clean_str (clean_str x) = clean_str x`) and case/whitespace-insensitive
(`clean_str " abc " = clean_str "ABC" = "ABC"`). -/
theorem clean_str_contract :
    clean_str none = [] ∧ clean_str (some []) = [] ∧
    (∀ s : Str, s ≠ [] → clean_str (some s) = toUpperL (trim s)) ∧
    (∀ v : Option Str, clean_str (some (clean_str v)) = clean_str v) ∧
    clean_str (some (ofStr " abc ")) = ofStr "ABC" ∧
    clean_str (some (ofStr "ABC")) = ofStr "ABC" := by
  refine ⟨rfl, rfl, ?_, clean_str_idem, by decide, by decide⟩
  intro s hs
  simp [clean_str, hs]

/-- Witness for C8 at the concrete input `" abc "`. -/
theorem clean_str_contract_witness :
    ofStr " abc " ≠ [] ∧
      clean_str (some (ofStr " abc ")) = toUpperL (trim (ofStr " abc ")) :=
  ⟨by decide, clean_str_contract.2.2.1 (ofStr " abc ") (by decide)⟩

/-- C2: a resolved record is in the unmatched table iff its resolved main
account is `"000000"`, or its resolved sub account is `"000000"`, or its
resolved company is `"NULL"`, or its product lookup returned no value;
account-type and cost-center defaults play no role in the condition. -/
theorem unmatched_iff (sam mam : List MappingRow) (ma company : List (Str × Str))
    (ccm : List CcmRow) (pt : List (Str × Str)) (df : List TransactionRecord)
    (r : ResolvedRecord) :
    r ∈ (transform_data df sam mam ma company ccm pt).2.2 ↔
      (r ∈ (transform_data df sam mam ma company ccm pt).1 ∧
        (r.dtvMainAccount = ofStr "000000" ∨ r.dtvSubAccount = ofStr "000000" ∨
          r.dtvCompany = ofStr "NULL" ∨ r.finPrdCd = none)) := by
  simp [transform_data, List.mem_filter, isUnmatched, Option.isNone_iff_eq_none,
    Bool.or_eq_true, beq_iff_eq, and_assoc, or_assoc]

/-- C3: the two-stage lookup returns the target of the first exact-match row
when one exists (never a wildcard row's target in that case), the target of
the first wildcard row when no exact row matches, and the default when
neither matches. -/
theorem lookup_precedence (mapping : List MappingRow) (d gl etc : Str) :
    (∀ r, mapping.find? (exactKeyP gl etc) = some r →
        lookup_one mapping d gl etc = r.target) ∧
    (mapping.find? (exactKeyP gl etc) = none →
      ∀ w, mapping.find? (wildKeyP gl) = some w →
        lookup_one mapping d gl etc = w.target) ∧
    (mapping.find? (exactKeyP gl etc) = none →
      mapping.find? (wildKeyP gl) = none → lookup_one mapping d gl etc = d) := by
  refine ⟨?_, ?_, ?_⟩
  · intro r h
    simp [lookup_one, h]
  · intro h w hw
    simp [lookup_one, h, hw]
  · intro h hw
    simp [lookup_one, h, hw]

/-- The spec's example table: an exact row and a wildcard row for GL 4000. -/
def exMam : List MappingRow :=
  [⟨ofStr "4000", ofStr "10", ofStr "100100"⟩, ⟨ofStr "4000", ofStr "*", ofStr "100999"⟩]

/-- Witness for C3 on the spec's example table: exact beats wildcard,
wildcard catches EXTC 99, and an unknown GL falls back to the default. -/
theorem lookup_precedence_witness :
    lookup_one exMam (ofStr "000000") (ofStr "4000") (ofStr "10") = ofStr "100100" ∧
    lookup_one exMam (ofStr "000000") (ofStr "4000") (ofStr "99") = ofStr "100999" ∧
    lookup_one exMam (ofStr "000000") (ofStr "9999") (ofStr "10") = ofStr "000000" :=
  ⟨(lookup_precedence exMam (ofStr "000000") (ofStr "4000") (ofStr "10")).1
      ⟨ofStr "4000", ofStr "10", ofStr "100100"⟩ (by decide),
    (lookup_precedence exMam (ofStr "000000") (ofStr "4000") (ofStr "99")).2.1 (by decide)
      ⟨ofStr "4000", ofStr "*", ofStr "100999"⟩ (by decide),
    (lookup_precedence exMam (ofStr "000000") (ofStr "9999") (ofStr "10")).2.2
      (by decide) (by decide)⟩

/-- C4: for every resolved record, the (rounded) amount equals debit minus
credit, both columns are nonnegative, they are never both strictly positive,
and both vanish only when the rounded amount is exactly zero. -/
theorem resolved_debit_credit (sam mam : List MappingRow) (ma company : List (Str × Str))
    (ccm : List CcmRow) (pt : List (Str × Str)) (df : List TransactionRecord)
    (r : ResolvedRecord) (h : r ∈ (transform_data df sam mam ma company ccm pt).1) :
    r.amountOut = r.debit - r.credit ∧ 0 ≤ r.debit ∧ 0 ≤ r.credit ∧
      ¬(0 < r.debit ∧ 0 < r.credit) ∧ ((r.debit = 0 ∧ r.credit = 0) → r.amountOut = 0) := by
  simp only [transform_data, List.mem_map] at h
  obtain ⟨t, ht, rfl⟩ := h
  rw [resolveRecord_debit, resolveRecord_credit, resolveRecord_amountOut]
  refine ⟨(debit_sub_credit t.amount).symm, ?_, ?_, ?_, ?_⟩
  · by_cases h : 0 < t.amount
    · rw [if_pos h]
      exact round2_nonneg _ (le_of_lt h)
    · rw [if_neg h]
  · by_cases h : t.amount < 0
    · rw [if_pos h]
      exact round2_nonneg _ (abs_nonneg _)
    · rw [if_neg h]
  · rintro ⟨hd, hc⟩
    by_cases h : 0 < t.amount
    · rw [if_neg (by linarith)] at hc
      exact absurd hc (lt_irrefl 0)
    · rw [if_neg h] at hd
      exact absurd hd (lt_irrefl 0)
  · rintro ⟨hd, hc⟩
    have h2 := debit_sub_credit t.amount
    rw [hd, hc] at h2
    simpa using h2.symm

/-- Witness for C4 at a concrete record of amount `-3/2`. -/
theorem resolved_debit_credit_witness :
    (resolveRecord [] [] [] [] [] [] wRec).amountOut =
      (resolveRecord [] [] [] [] [] [] wRec).debit -
        (resolveRecord [] [] [] [] [] [] wRec).credit :=
  (resolved_debit_credit [] [] [] [] [] [] [wRec] (resolveRecord [] [] [] [] [] [] wRec)
    (List.mem_singleton.mpr rfl)).1

/-- The resolved records' debit sum minus credit sum equals the sum of the
per-record ROUNDED amounts (not, in general, of the raw amounts). -/
theorem total_debit_sub_total_credit (sam mam : List MappingRow)
    (ma company : List (Str × Str)) (ccm : List CcmRow) (pt : List (Str × Str))
    (df : List TransactionRecord) :
    total_debit ((transform_data df sam mam ma company ccm pt).1) -
      total_credit ((transform_data df sam mam ma company ccm pt).1) =
      (df.map (fun t => round2 t.amount)).sum := by
  simp only [transform_data]
  induction df with
  | nil => simp [total_debit, total_credit]
  | cons t rest ih =>
    simp only [List.map_cons, total_debit, total_credit, List.sum_cons] at ih ⊢
    rw [resolveRecord_debit, resolveRecord_credit]
    have h := debit_sub_credit t.amount
    linarith

/-- Counterexample input for claim C1: a single record of amount 0.001. -/
def cexRec : TransactionRecord :=
  ⟨ofStr "", ofStr "", ofStr "", ofStr "", ofStr "", 1/1000, ofStr ""⟩

/-- C1 as stated is false: for the single record of amount 0.001, the debit
sum minus the credit sum is 0, not the original signed amount 0.001 —
rounding happens per record when the Debit/Credit columns are built. -/
theorem net_amount_not_exact :
    total_debit ((transform_data [cexRec] [] [] [] [] [] []).1) -
      total_credit ((transform_data [cexRec] [] [] [] [] [] []).1) ≠
      total_amount [cexRec] := by
  rw [total_debit_sub_total_credit]
  have h1 : round2 ((1 : ℚ)/1000) = 0 := by
    unfold round2
    have h : (1/1000 : ℚ) * 100 = 1/10 := by norm_num
    rw [h, halfEven_of_lt 0 (1/10) (by norm_num) (by norm_num)]
    norm_num
  simp only [List.map_cons, List.map_nil, List.sum_cons, List.sum_nil, total_amount]
  have h2 : cexRec.amount = (1 : ℚ)/1000 := rfl
  rw [h2, h1]
  norm_num

/-- C1 amended: when every input amount is an exact two-decimal value, the
debit sum minus the credit sum equals the sum of the original signed
amounts exactly. -/
theorem net_amount_conservation (sam mam : List MappingRow)
    (ma company : List (Str × Str)) (ccm : List CcmRow) (pt : List (Str × Str))
    (df : List TransactionRecord)
    (h : ∀ t ∈ df, ∃ n : ℤ, t.amount = (n : ℚ) / 100) :
    total_debit ((transform_data df sam mam ma company ccm pt).1) -
      total_credit ((transform_data df sam mam ma company ccm pt).1) =
      total_amount df := by
  rw [total_debit_sub_total_credit]
  unfold total_amount
  have hmap : df.map (fun t => round2 t.amount) = df.map (fun t => t.amount) := by
    apply List.map_congr_left
    intro t ht
    obtain ⟨n, hn⟩ := h t ht
    rw [hn, round2_cent]
  rw [hmap]

/-- Witness records for C1: amounts +150.00 and -50.00 (the spec's example). -/
def wRecA : TransactionRecord :=
  ⟨ofStr "C", ofStr "G", ofStr "E", ofStr "", ofStr "", 150, ofStr "P"⟩

/-- Second witness record for C1. -/
def wRecB : TransactionRecord :=
  ⟨ofStr "C", ofStr "G", ofStr "E", ofStr "", ofStr "", -50, ofStr "P"⟩

/-- Witness for C1 (amended) on amounts +150.00 and -50.00. -/
theorem net_amount_conservation_witness :
    total_debit ((transform_data [wRecA, wRecB] [] [] [] [] [] []).1) -
      total_credit ((transform_data [wRecA, wRecB] [] [] [] [] [] []).1) =
      total_amount [wRecA, wRecB] := by
  apply net_amount_conservation
  intro t ht
  rcases List.mem_cons.mp ht with rfl | ht2
  · exact ⟨15000, by norm_num [wRecA]⟩
  · rcases List.mem_cons.mp ht2 with rfl | ht3
    · exact ⟨-5000, by norm_num [wRecB]⟩
    · simp at ht3

/-- Counterexample input for claim C7: amount 0.004, appearing twice in the
same summary group. -/
def cexRec2 : TransactionRecord :=
  ⟨ofStr "", ofStr "", ofStr "", ofStr "", ofStr "", 1/250, ofStr ""⟩

/-- C7 as stated is false: for two records of amount 0.004 in one group, the
code's group debit (per-record rounding first, then a final round) is 0,
while rounding once after summing the unrounded amounts gives 0.01. -/
theorem summary_rounding_cex :
    summaryDebit ((transform_data [cexRec2, cexRec2] [] [] [] [] [] []).1)
        (keyOf (resolveRecord [] [] [] [] [] [] cexRec2)) ≠
      specSummaryDebit ((transform_data [cexRec2, cexRec2] [] [] [] [] [] []).1)
        (keyOf (resolveRecord [] [] [] [] [] [] cexRec2)) ∧
    summaryDebit ((transform_data [cexRec2, cexRec2] [] [] [] [] [] []).1)
        (keyOf (resolveRecord [] [] [] [] [] [] cexRec2)) = 0 ∧
    specSummaryDebit ((transform_data [cexRec2, cexRec2] [] [] [] [] [] []).1)
        (keyOf (resolveRecord [] [] [] [] [] [] cexRec2)) = 1/100 := by
  have hd : round2 ((1 : ℚ)/250) = 0 := by
    unfold round2
    have h : (1/250 : ℚ) * 100 = 2/5 := by norm_num
    rw [h, halfEven_of_lt 0 (2/5) (by norm_num) (by norm_num)]
    norm_num
  have ha : cexRec2.amount = (1 : ℚ)/250 := rfl
  have h0 : summaryDebit ((transform_data [cexRec2, cexRec2] [] [] [] [] [] []).1)
      (keyOf (resolveRecord [] [] [] [] [] [] cexRec2)) = 0 := by
    unfold summaryDebit
    simp only [transform_data, List.map_cons, List.map_nil, List.filter_cons,
      beq_self_eq_true', if_pos, List.filter_nil, List.sum_cons, List.sum_nil,
      resolveRecord_debit]
    rw [ha]
    rw [if_pos (by norm_num : (0 : ℚ) < 1/250), hd]
    simpa using round2_zero
  have h1 : specSummaryDebit ((transform_data [cexRec2, cexRec2] [] [] [] [] [] []).1)
      (keyOf (resolveRecord [] [] [] [] [] [] cexRec2)) = 1/100 := by
    unfold specSummaryDebit
    simp only [transform_data, List.map_cons, List.map_nil, List.filter_cons,
      beq_self_eq_true', if_pos, List.filter_nil, List.sum_cons, List.sum_nil,
      resolveRecord_origin]
    rw [ha]
    rw [if_pos (by norm_num : (0 : ℚ) < 1/250)]
    have h : (1/250 : ℚ) + (1/250 + 0) = 1/125 := by norm_num
    rw [h]
    unfold round2
    have h2 : (1/125 : ℚ) * 100 = 4/5 := by norm_num
    rw [h2, halfEven_of_gt 0 (4/5) (by norm_num) (by norm_num)]
    norm_num
  exact ⟨by rw [h0, h1]; norm_num, h0, h1⟩

/-- C7 amended: each summary group's debit and credit totals equal the plain
sums of the members' per-record ROUNDED debit/credit values — the per-record
rounding happens when the Debit/Credit columns are built, and the final
per-group rounding after summation changes nothing on exact values. -/
theorem summary_group_totals (sam mam : List MappingRow)
    (ma company : List (Str × Str)) (ccm : List CcmRow) (pt : List (Str × Str))
    (df : List TransactionRecord) (s : SummaryRow)
    (h : s ∈ (transform_data df sam mam ma company ccm pt).2.1) :
    s.debit = ((((transform_data df sam mam ma company ccm pt).1).filter
        (fun r => keyOf r == s.key)).map (fun r => r.debit)).sum ∧
    s.credit = ((((transform_data df sam mam ma company ccm pt).1).filter
        (fun r => keyOf r == s.key)).map (fun r => r.credit)).sum := by
  simp only [transform_data, summaryOf, List.mem_map] at h ⊢
  obtain ⟨k, hk, rfl⟩ := h
  constructor
  · show summaryDebit (df.map (resolveRecord sam mam ma company ccm pt)) k = _
    unfold summaryDebit
    apply round2_sum_of_cents
    intro x hx
    simp only [List.mem_map] at hx
    obtain ⟨r, hr, rfl⟩ := hx
    have hr2 : r ∈ df.map (resolveRecord sam mam ma company ccm pt) :=
      List.mem_of_mem_filter hr
    simp only [List.mem_map] at hr2
    obtain ⟨t, _, rfl⟩ := hr2
    rw [resolveRecord_debit]
    exact debit_is_cent t.amount
  · show summaryCredit (df.map (resolveRecord sam mam ma company ccm pt)) k = _
    unfold summaryCredit
    apply round2_sum_of_cents
    intro x hx
    simp only [List.mem_map] at hx
    obtain ⟨r, hr, rfl⟩ := hx
    have hr2 : r ∈ df.map (resolveRecord sam mam ma company ccm pt) :=
      List.mem_of_mem_filter hr
    simp only [List.mem_map] at hr2
    obtain ⟨t, _, rfl⟩ := hr2
    rw [resolveRecord_credit]
    exact credit_is_cent t.amount

/-- Witness for C7 (amended) on the one-record input `wRec`. -/
theorem summary_group_totals_witness :
    (⟨keyOf (resolveRecord [] [] [] [] [] [] wRec),
        summaryDebit [resolveRecord [] [] [] [] [] [] wRec]
          (keyOf (resolveRecord [] [] [] [] [] [] wRec)),
        summaryCredit [resolveRecord [] [] [] [] [] [] wRec]
          (keyOf (resolveRecord [] [] [] [] [] [] wRec)),
        summaryAccount (keyOf (resolveRecord [] [] [] [] [] [] wRec))⟩ : SummaryRow).debit =
      ((((transform_data [wRec] [] [] [] [] [] []).1).filter
        (fun r => keyOf r ==
          (⟨keyOf (resolveRecord [] [] [] [] [] [] wRec),
            summaryDebit [resolveRecord [] [] [] [] [] [] wRec]
              (keyOf (resolveRecord [] [] [] [] [] [] wRec)),
            summaryCredit [resolveRecord [] [] [] [] [] [] wRec]
              (keyOf (resolveRecord [] [] [] [] [] [] wRec)),
            summaryAccount (keyOf (resolveRecord [] [] [] [] [] [] wRec))⟩ : SummaryRow).key)).map
        (fun r => r.debit)).sum :=
  (summary_group_totals [] [] [] [] [] [] [wRec] _ (List.mem_singleton.mpr rfl)).1

/-- C5: for every resolved record whose segment values contain no `*`, the
composite Account string splits on `*` into exactly nine segments in the
fixed order company, main, sub, cost center, "0000", product, "000",
"00000", "00000". -/
theorem account_nine_segments (sam mam : List MappingRow)
    (ma company : List (Str × Str)) (ccm : List CcmRow) (pt : List (Str × Str))
    (df : List TransactionRecord) (r : ResolvedRecord)
    (h : r ∈ (transform_data df sam mam ma company ccm pt).1)
    (h1 : 42 ∉ r.dtvCompany) (h2 : 42 ∉ r.dtvMainAccount) (h3 : 42 ∉ r.dtvSubAccount)
    (h4 : 42 ∉ r.dtvCostCenter) (h5 : 42 ∉ r.product) :
    r.account.splitOn 42 =
      [r.dtvCompany, r.dtvMainAccount, r.dtvSubAccount, r.dtvCostCenter,
        ofStr "0000", r.product, ofStr "000", ofStr "00000", ofStr "00000"] ∧
    (r.account.splitOn 42).length = 9 := by
  simp only [transform_data, List.mem_map] at h
  obtain ⟨t, _, rfl⟩ := h
  have hs := splitOn_nine _ _ _ _ _ h1 h2 h3 h4 h5
  rw [resolveRecord_account]
  exact ⟨hs, by rw [hs]; rfl⟩

/-- Witness for C5: the record `wRec` resolved against empty tables. -/
theorem account_nine_segments_witness :
    ((resolveRecord [] [] [] [] [] [] wRec).account.splitOn 42).length = 9 :=
  (account_nine_segments [] [] [] [] [] [] [wRec] (resolveRecord [] [] [] [] [] [] wRec)
    (List.mem_singleton.mpr rfl) (by decide) (by decide) (by decide) (by decide)
    (by decide)).2

/-- C9: every summary row with a resolved product has an Account string of
TEN `*`-separated segments — the account-type label is inserted as the
fourth segment between sub account and cost center, unlike the nine-segment
per-record format. -/
theorem summary_account_ten_segments (sam mam : List MappingRow)
    (ma company : List (Str × Str)) (ccm : List CcmRow) (pt : List (Str × Str))
    (df : List TransactionRecord) (s : SummaryRow) (p : Str)
    (h : s ∈ (transform_data df sam mam ma company ccm pt).2.1)
    (hp : s.key.finPrd = some p)
    (h1 : 42 ∉ s.key.company) (h2 : 42 ∉ s.key.main) (h3 : 42 ∉ s.key.sub)
    (h4 : 42 ∉ s.key.accountType) (h5 : 42 ∉ s.key.costCenter) (h6 : 42 ∉ p) :
    s.account = some
      (s.key.company ++ starSep ++ s.key.main ++ starSep ++ s.key.sub ++ starSep ++
        s.key.accountType ++ starSep ++ s.key.costCenter ++ ofStr "*0000*" ++ p ++
        ofStr "*000*00000*00000") ∧
    (s.key.company ++ starSep ++ s.key.main ++ starSep ++ s.key.sub ++ starSep ++
        s.key.accountType ++ starSep ++ s.key.costCenter ++ ofStr "*0000*" ++ p ++
        ofStr "*000*00000*00000").splitOn 42 =
      [s.key.company, s.key.main, s.key.sub, s.key.accountType, s.key.costCenter,
        ofStr "0000", p, ofStr "000", ofStr "00000", ofStr "00000"] ∧
    ((s.key.company ++ starSep ++ s.key.main ++ starSep ++ s.key.sub ++ starSep ++
        s.key.accountType ++ starSep ++ s.key.costCenter ++ ofStr "*0000*" ++ p ++
        ofStr "*000*00000*00000").splitOn 42).length = 10 := by
  have hs := splitOn_ten s.key.company s.key.main s.key.sub s.key.accountType
    s.key.costCenter p h1 h2 h3 h4 h5 h6
  refine ⟨?_, hs, by rw [hs]; rfl⟩
  simp only [transform_data, summaryOf, List.mem_map] at h
  obtain ⟨k, hk, rfl⟩ := h
  have hp2 : k.finPrd = some p := hp
  show summaryAccount k = _
  unfold summaryAccount
  rw [hp2]
  rfl

/-- Product table used by the C9 witness. -/
def wProdTbl : List (Str × Str) := [(ofStr "P1", ofStr "FP")]

/-- The C9 witness record resolved with a product match. -/
def wResolvedP : ResolvedRecord := resolveRecord [] [] [] [] [] wProdTbl wRec

/-- The C9 witness summary row. -/
def wSumRow : SummaryRow :=
  ⟨keyOf wResolvedP, summaryDebit [wResolvedP] (keyOf wResolvedP),
    summaryCredit [wResolvedP] (keyOf wResolvedP), summaryAccount (keyOf wResolvedP)⟩

/-- Witness for C9 on a record whose product resolves via a one-row table. -/
theorem summary_account_ten_segments_witness :
    ((wSumRow.key.company ++ starSep ++ wSumRow.key.main ++ starSep ++ wSumRow.key.sub ++
        starSep ++ wSumRow.key.accountType ++ starSep ++ wSumRow.key.costCenter ++
        ofStr "*0000*" ++ ofStr "FP" ++ ofStr "*000*00000*00000").splitOn 42).length = 10 :=
  (summary_account_ten_segments [] [] [] [] [] wProdTbl [wRec] wSumRow (ofStr "FP")
    (List.mem_singleton.mpr rfl) (by decide) (by decide) (by decide) (by decide)
    (by decide) (by decide) (by decide)).2.2

/-- C6: if any required mapping table is absent, the pipeline fails before
any record is resolved with a single error whose message names the
categories (including the missing one), and no resolved/summary/unmatched
output is produced; likewise the product sheet missing its required columns
aborts the run. -/
theorem missing_table_fails (df : List TransactionRecord)
    (samQ mamQ : Option (List MappingRow)) (maQ companyQ : Option (List (Str × Str)))
    (ccmQ : Option (List CcmRow)) (prodCols : List Str) (prodRows : List (Str × Str)) :
    ((samQ = none ∨ mamQ = none ∨ maQ = none ∨ companyQ = none ∨ ccmQ = none) →
      run_pipeline df samQ mamQ maQ companyQ ccmQ prodCols prodRows =
        Except.error (ofStr "Missing one or more mapping files: sam, mam, ma, company, ccm") ∧
      (∀ out, run_pipeline df samQ mamQ maQ companyQ ccmQ prodCols prodRows ≠
        Except.ok out) ∧
      hasSub (ofStr "sam")
        (ofStr "Missing one or more mapping files: sam, mam, ma, company, ccm") = true ∧
      hasSub (ofStr "mam")
        (ofStr "Missing one or more mapping files: sam, mam, ma, company, ccm") = true ∧
      hasSub (ofStr "ma")
        (ofStr "Missing one or more mapping files: sam, mam, ma, company, ccm") = true ∧
      hasSub (ofStr "company")
        (ofStr "Missing one or more mapping files: sam, mam, ma, company, ccm") = true ∧
      hasSub (ofStr "ccm")
        (ofStr "Missing one or more mapping files: sam, mam, ma, company, ccm") = true) ∧
    (∀ s m a c cc, samQ = some s → mamQ = some m → maQ = some a → companyQ = some c →
      ccmQ = some cc →
      (ofStr "ATT_SLS_PRD_ID" ∉ prodCols ∨ ofStr "FIN_PRD_CD" ∉ prodCols) →
      run_pipeline df samQ mamQ maQ companyQ ccmQ prodCols prodRows =
        Except.error
          (ofStr "Product mapping sheet must contain columns: ATT_SLS_PRD_ID, FIN_PRD_CD") ∧
      (∀ out, run_pipeline df samQ mamQ maQ companyQ ccmQ prodCols prodRows ≠
        Except.ok out)) := by
  constructor
  · intro h
    have herr : run_pipeline df samQ mamQ maQ companyQ ccmQ prodCols prodRows =
        Except.error
          (ofStr "Missing one or more mapping files: sam, mam, ma, company, ccm") := by
      rcases h with h | h | h | h | h <;> subst h <;>
        simp [run_pipeline, extract_data, Bind.bind, Except.bind]
    refine ⟨herr, ?_, by decide, by decide, by decide, by decide, by decide⟩
    intro out
    rw [herr]
    simp
  · intro s m a c cc hs hm ha hc hcc hcols
    subst hs; subst hm; subst ha; subst hc; subst hcc
    have hcond : ¬(ofStr "ATT_SLS_PRD_ID" ∈ prodCols ∧ ofStr "FIN_PRD_CD" ∈ prodCols) := by
      rcases hcols with h | h
      · exact fun hcontra => h hcontra.1
      · exact fun hcontra => h hcontra.2
    have herr : run_pipeline df (some s) (some m) (some a) (some c) (some cc)
        prodCols prodRows =
        Except.error
          (ofStr "Product mapping sheet must contain columns: ATT_SLS_PRD_ID, FIN_PRD_CD") := by
      simp [run_pipeline, extract_data, load_product_mapping, hcond, Bind.bind, Except.bind]
    refine ⟨herr, ?_⟩
    intro out
    rw [herr]
    simp

/-- Witness for C6: a run with the sam table absent fails with the
missing-tables error. -/
theorem missing_table_fails_witness :
    run_pipeline [wRec] none (some []) (some []) (some []) (some []) [] [] =
      Except.error (ofStr "Missing one or more mapping files: sam, mam, ma, company, ccm") :=
  ((missing_table_fails [wRec] none (some []) (some []) (some []) (some []) [] []).1
    (Or.inl rfl)).1

/-- C10: unmatched records are not excluded from the other outputs — each one
is also in the resolved table, its group key appears among the summary rows,
and the grand totals split as (matched) + (unmatched) contributions. -/
theorem unmatched_not_excluded (sam mam : List MappingRow)
    (ma company : List (Str × Str)) (ccm : List CcmRow) (pt : List (Str × Str))
    (df : List TransactionRecord) :
    (∀ r ∈ (transform_data df sam mam ma company ccm pt).2.2,
        r ∈ (transform_data df sam mam ma company ccm pt).1) ∧
    (∀ r ∈ (transform_data df sam mam ma company ccm pt).2.2,
        ∃ s ∈ (transform_data df sam mam ma company ccm pt).2.1, s.key = keyOf r) ∧
    total_debit ((transform_data df sam mam ma company ccm pt).1) =
      total_debit (((transform_data df sam mam ma company ccm pt).1).filter
          (fun r => !(isUnmatched r))) +
        total_debit ((transform_data df sam mam ma company ccm pt).2.2) ∧
    total_credit ((transform_data df sam mam ma company ccm pt).1) =
      total_credit (((transform_data df sam mam ma company ccm pt).1).filter
          (fun r => !(isUnmatched r))) +
        total_credit ((transform_data df sam mam ma company ccm pt).2.2) := by
  refine ⟨?_, ?_, ?_, ?_⟩
  · intro r hr
    exact List.mem_of_mem_filter hr
  · intro r hr
    have hr1 : r ∈ (transform_data df sam mam ma company ccm pt).1 :=
      List.mem_of_mem_filter hr
    simp only [transform_data] at hr1 ⊢
    have hk : keyOf r ∈ (df.map (resolveRecord sam mam ma company ccm pt)).map keyOf :=
      List.mem_map_of_mem keyOf hr1
    rcases mem_dedupKeys _ _ hk [] with hin | hin
    · refine ⟨⟨keyOf r,
        summaryDebit (df.map (resolveRecord sam mam ma company ccm pt)) (keyOf r),
        summaryCredit (df.map (resolveRecord sam mam ma company ccm pt)) (keyOf r),
        summaryAccount (keyOf r)⟩, ?_, rfl⟩
      unfold summaryOf
      exact List.mem_map_of_mem _ hin
    · simp at hin
  · have h := sum_map_filter_split ((transform_data df sam mam ma company ccm pt).1)
      isUnmatched (fun r => r.debit)
    have h22 : (transform_data df sam mam ma company ccm pt).2.2 =
        ((transform_data df sam mam ma company ccm pt).1).filter isUnmatched := rfl
    unfold total_debit
    rw [h, h22]
    ring
  · have h := sum_map_filter_split ((transform_data df sam mam ma company ccm pt).1)
      isUnmatched (fun r => r.credit)
    have h22 : (transform_data df sam mam ma company ccm pt).2.2 =
        ((transform_data df sam mam ma company ccm pt).1).filter isUnmatched := rfl
    unfold total_credit
    rw [h, h22]
    ring

/-- Witness for C10: with an empty product table the record is unmatched, and
it still appears in the resolved table. -/
theorem unmatched_not_excluded_witness :
    resolveRecord [] [] [] [] [] [] wRec ∈ (transform_data [wRec] [] [] [] [] [] []).1 :=
  (unmatched_not_excluded [] [] [] [] [] [] [wRec]).1 (resolveRecord [] [] [] [] [] [] wRec)
    (List.mem_singleton.mpr rfl)

/-- C9 as stated is false: with an empty product table the record's product
lookup is unresolved, the summary still contains its group row (`dropna=False`),
but that row's Account is a missing value, not a ten-segment string — string
concatenation with the missing FIN_PRD_CD yields no string at all. -/
theorem summary_unresolved_product_cex :
    (((transform_data [wRec] [] [] [] [] [] []).2.1).map (fun s => s.account)) = [none] := by
  rfl
